import Mathlib

/-!
Verification of the google-sheets-datasource transformation and caching
engine against its specification.  The repository sources at hand are the
plugin entry point (datasource/datasource.go), the query editor
(src/QueryEditor.tsx) and the test suite of the googlesheets package; the
googlesheets package itself (column namer, type and unit inferencer, frame
assembler, fetch-cache orchestrator) is modelled from the specification.
-/

namespace GSheets

/-! ## Column namer (spec section 4.1)

Modelled from the spec: the Go function getUniqueColumnName of the
googlesheets package is absent from the sources (only its tests are
present).  Per section 4.1: an empty header yields the candidate
"Field (index+1)", otherwise the header itself; while the candidate is
already used, the integer counter (starting at the column index, as in the
example "header" + "1" for index 1) is appended and then incremented.  The
fuel usedNames.card + 1 is shown below to be large enough that the loop
always escapes usedNames. -/

def uniqueNameLoop (used : Finset String) : Nat → String → Nat → String
  | 0, name, _ => name
  | fuel + 1, name, counter =>
      if name ∈ used then
        uniqueNameLoop used fuel (name ++ toString counter) (counter + 1)
      else name

def getUniqueColumnName (header : String) (index : Nat) (usedNames : Finset String) : String :=
  uniqueNameLoop usedNames (usedNames.card + 1)
    (if header = "" then "Field " ++ toString (index + 1) else header) index

/-- The digit accumulator of Nat.toDigitsCore is a suffix of its result. -/
theorem toDigitsCore_suffix_acc (b : Nat) :
    ∀ (fuel n : Nat) (ds : List Char), ds <:+ Nat.toDigitsCore b fuel n ds
  | 0, _, _ => List.suffix_refl _
  | fuel + 1, n, ds => by
      unfold Nat.toDigitsCore
      by_cases h : n / b = 0
      · simp [h]
      · simp only [h, if_false, reduceIte]
        exact (List.suffix_cons _ _).trans (toDigitsCore_suffix_acc b fuel _ _)

/-- The decimal digit list of a natural number is never empty. -/
theorem toDigits_ne_nil (n : Nat) : Nat.toDigits 10 n ≠ [] := by
  unfold Nat.toDigits Nat.toDigitsCore
  by_cases h : n / 10 = 0
  · simp [h]
  · simp only [h, if_false, reduceIte]
    intro hnil
    have hs := toDigitsCore_suffix_acc 10 n (n / 10) [Nat.digitChar (n % 10)]
    rw [hnil] at hs
    simp at hs

/-- Rendering a natural number gives a nonempty string. -/
theorem length_toString_nat_pos (n : Nat) : 0 < (toString n).length := by
  have h : (toString n).length = (Nat.toDigits 10 n).length := rfl
  rw [h]
  exact List.length_pos.mpr (toDigits_ne_nil n)

/-- If the naming loop still lands inside usedNames, the fuel is bounded by
the number of used names at least as long as the current candidate. -/
theorem uniqueNameLoop_mem_bound (used : Finset String) :
    ∀ (fuel : Nat) (name : String) (counter : Nat),
      uniqueNameLoop used fuel name counter ∈ used →
      fuel + 1 ≤ (used.filter (fun s => name.length ≤ s.length)).card := by
  intro fuel
  induction fuel with
  | zero =>
      intro name counter hmem
      have hname : name ∈ used.filter (fun s => name.length ≤ s.length) :=
        Finset.mem_filter.mpr ⟨hmem, le_refl _⟩
      have := Finset.card_pos.mpr ⟨name, hname⟩
      omega
  | succ fuel ih =>
      intro name counter hmem
      by_cases hin : name ∈ used
      · have hrec : uniqueNameLoop used fuel (name ++ toString counter) (counter + 1) ∈ used := by
          simpa [uniqueNameLoop, hin] using hmem
        have hIH := ih (name ++ toString counter) (counter + 1) hrec
        have hlen : name.length < (name ++ toString counter).length := by
          rw [String.length_append]
          have := length_toString_nat_pos counter
          omega
        have hsub : used.filter (fun s => (name ++ toString counter).length ≤ s.length) ⊆
            (used.filter (fun s => name.length ≤ s.length)).erase name := by
          intro s hsmem
          rcases Finset.mem_filter.mp hsmem with ⟨hsu, hsl⟩
          refine Finset.mem_erase.mpr ⟨?_, Finset.mem_filter.mpr ⟨hsu, by omega⟩⟩
          intro hcontra
          rw [hcontra] at hsl
          omega
        have hnameA : name ∈ used.filter (fun s => name.length ≤ s.length) :=
          Finset.mem_filter.mpr ⟨hin, le_refl _⟩
        have hcard := Finset.card_le_card hsub
        rw [Finset.card_erase_of_mem hnameA] at hcard
        have hpos := Finset.card_pos.mpr ⟨name, hnameA⟩
        omega
      · exfalso
        rw [uniqueNameLoop, if_neg hin] at hmem
        exact hin hmem

/-- C5: for every header string, index and finite usedNames set, the column
namer terminates (it is a total function) and returns a name that is not a
member of usedNames; it has no error path. -/
theorem getUniqueColumnName_not_mem (header : String) (index : Nat)
    (usedNames : Finset String) : getUniqueColumnName header index usedNames ∉ usedNames := by
  intro hmem
  have hb := uniqueNameLoop_mem_bound usedNames (usedNames.card + 1)
    (if header = "" then "Field " ++ toString (index + 1) else header) index hmem
  have hle := Finset.card_filter_le usedNames
    (fun s => (if header = "" then "Field " ++ toString (index + 1) else header).length ≤ s.length)
  omega

/-- Witness for C5 at a concrete input. -/
theorem getUniqueColumnName_not_mem_witness :
    getUniqueColumnName "a" 0 {"a", "a0"} ∉ ({"a", "a0"} : Finset String) :=
  getUniqueColumnName_not_mem "a" 0 {"a", "a0"}

/-- C6: for a non-empty header already in usedNames the next candidate is
the header with the integer index appended; in particular
getUniqueColumnName "header" 1, used "header","name" gives "header1", and
getUniqueColumnName "" 3 on the empty set gives "Field 4". -/
theorem getUniqueColumnName_index_suffixed :
    (∀ (header : String) (index : Nat) (used : Finset String),
        header ≠ "" → header ∈ used → header ++ toString index ∉ used →
        getUniqueColumnName header index used = header ++ toString index) ∧
    getUniqueColumnName "header" 1 {"header", "name"} = "header1" ∧
    getUniqueColumnName "" 3 ∅ = "Field 4" := by
  refine ⟨?_, by decide, by decide⟩
  intro header index used h1 h2 h3
  obtain ⟨c, hc⟩ : ∃ c, used.card = c + 1 := by
    have := Finset.card_pos.mpr ⟨header, h2⟩
    exact ⟨used.card - 1, by omega⟩
  simp only [getUniqueColumnName, if_neg h1, hc]
  show uniqueNameLoop used (c + 1 + 1) header index = header ++ toString index
  rw [uniqueNameLoop, if_pos h2, uniqueNameLoop, if_neg h3]

/-- Witness for C6 at a concrete input. -/
theorem getUniqueColumnName_index_suffixed_witness :
    getUniqueColumnName "x" 2 {"x"} = "x" ++ toString 2 :=
  getUniqueColumnName_index_suffixed.1 "x" 2 {"x"} (by decide) (by decide) (by decide)

/-! ## Data model (spec section 3)

Modelled from the spec: the googlesheets package data types.  A Cell
carries a formatted display string, an optional typed value (number,
boolean or timestamp) and an optional format-category tag; rows may be
shorter than the header and missing cells are treated as empty. -/

inductive TypedValue where
  | number (x : Int)
  | boolean (b : Bool)
  | timestamp (t : Int)
deriving DecidableEq, BEq

inductive ColType where
  | number
  | boolean
  | timestamp
  | string
deriving DecidableEq, BEq

def TypedValue.kind : TypedValue → ColType
  | .number _ => .number
  | .boolean _ => .boolean
  | .timestamp _ => .timestamp

inductive FormatCategory where
  | plain
  | percentage
  | date
  | currency (unit : String)
  | custom (pat : String)
deriving DecidableEq, BEq

structure Cell where
  formatted : String
  value : Option TypedValue
  format : Option FormatCategory
deriving DecidableEq

def emptyCell : Cell := ⟨"", none, none⟩

structure RawGrid where
  rows : List (List Cell)
deriving DecidableEq

inductive Value where
  | str (s : String)
  | typed (v : TypedValue)
deriving DecidableEq

structure Column where
  name : String
  type : ColType
  values : List Value
  usesFormatted : Bool
deriving DecidableEq

structure Frame where
  name : String
  fields : List Column
deriving DecidableEq

structure Metadata where
  hit : Bool
  spreadsheetId : String
  range : String
  warnings : List String
deriving DecidableEq

structure QueryModel where
  spreadsheetId : String
  range : String
  cacheDurationSeconds : Nat
deriving DecidableEq

/-! ## Type and unit inferencer (spec section 4.2) -/

def FormatCategory.isCurrency : FormatCategory → Bool
  | .currency _ => true
  | _ => false

/-- Modelled from the spec (section 4.2, type pass): only cells with a
non-empty typed value are considered; if all kinds agree that kind is the
effective type, otherwise the type falls back to string with a diagnostic;
an all-empty column defaults to string with no diagnostic. -/
def inferType (name : String) (kinds : List ColType) : ColType × List String :=
  match kinds with
  | [] => (.string, [])
  | k :: ks =>
      if ks.all (fun x => x == k) then (k, [])
      else (.string,
        ["Multipe data types found in column " ++ name ++ ". Using string data type"])

/-- Modelled from the spec (section 4.2, format pass): only cells with a
non-empty format category are considered; identical categories set no flag;
on disagreement the currency wording is used when every conflicting
category is a currency-like subvariant and the generic units wording
otherwise, and the uses-formatted-display flag is set. -/
def inferFormat (name : String) (fmts : List FormatCategory) : Bool × List String :=
  match fmts with
  | [] => (false, [])
  | f :: fs =>
      if fs.all (fun x => x == f) then (false, [])
      else if (f :: fs).all (fun x => x.isCurrency) then
        (true, ["Multipe currencies found in column " ++ name ++ ". Formatted value will be used"])
      else
        (true, ["Multipe units found in column " ++ name ++ ". Formatted value will be used"])

def cellKinds (cells : List Cell) : List ColType :=
  (cells.filterMap (fun c => c.value)).map TypedValue.kind

def cellFormats (cells : List Cell) : List FormatCategory :=
  cells.filterMap (fun c => c.format)

/-- Modelled from the spec (section 4.2): per column the type pass and the
format pass run independently; the type diagnostic precedes the format
diagnostic. -/
def inferColumn (name : String) (cells : List Cell) : ColType × Bool × List String :=
  let t := inferType name (cellKinds cells)
  let f := inferFormat name (cellFormats cells)
  (t.1, f.1, t.2 ++ f.2)

/-- When the uses-formatted-display flag is set the stored value is the
formatted display string, otherwise the parsed typed value (formatted
string for empty cells). -/
def cellValue (usesFormatted : Bool) (c : Cell) : Value :=
  if usesFormatted then .str c.formatted
  else
    match c.value with
    | some v => .typed v
    | none => .str c.formatted

def cellAt (row : List Cell) (i : Nat) : Cell := row.getD i emptyCell

/-! ## Frame assembler (spec section 4.3) -/

/-- Modelled from the spec (section 4.3): for each header column in
left-to-right order a unique name is drawn (used names tracked across the
whole header), the cells of the column are collected across all data rows
(short rows padded with empty cells), the inferencer runs, and the
diagnostics are accumulated in column order. -/
def assembleCols (dataRows : List (List Cell)) :
    List Cell → Nat → Finset String → List Column × List String
  | [], _, _ => ([], [])
  | h :: rest, i, used =>
      let name := getUniqueColumnName h.formatted i used
      let cells := dataRows.map (fun r => cellAt r i)
      let inf := inferColumn name cells
      let col : Column := ⟨name, inf.1, cells.map (cellValue inf.2.1), inf.2.1⟩
      let tail := assembleCols dataRows rest (i + 1) (insert name used)
      (col :: tail.1, inf.2.2 ++ tail.2)

inductive GSErr where
  | fetch (msg : String)
  | noHeaderRow
deriving DecidableEq

/-- Modelled from the spec (section 4.3): a grid without a header row
signals a StructureError; otherwise the Frame is named by the reference id
and the Metadata carries spreadsheet id, range and the accumulated
warnings. -/
def assemble (grid : RawGrid) (refId : String) (qm : QueryModel) :
    Except GSErr (Frame × Metadata) :=
  match grid.rows with
  | [] => .error .noHeaderRow
  | header :: dataRows =>
      let res := assembleCols dataRows header 0 ∅
      .ok (⟨refId, res.1⟩, ⟨false, qm.spreadsheetId, qm.range, res.2⟩)

/-! ## Fixture

Modelled from the spec: the file testdata/mixed-data.json of the test
suite is not among the sources.  Per sections 8.6 and 8.7 it holds 17 rows
(one header plus 16 data rows) and 16 header columns, among them a column
of mixed primitive types named MixedDataTypes, a column of mixed types and
mixed non-currency formats named MixedUnits, and a column of conflicting
formats named Mixed currencies whose expected diagnostic carries the
generic units wording, so its conflict set is not purely currency-like. -/

def hdrCell (s : String) : Cell := ⟨s, none, none⟩

def nCell : Cell := ⟨"1", some (.number 1), none⟩

def bCell : Cell := ⟨"true", some (.boolean true), none⟩

def fixtureHeader : List Cell :=
  [hdrCell "A", hdrCell "B", hdrCell "C", hdrCell "D", hdrCell "E", hdrCell "F",
   hdrCell "G", hdrCell "H", hdrCell "I", hdrCell "J", hdrCell "K", hdrCell "L",
   hdrCell "MixedDataTypes", hdrCell "MixedUnits", hdrCell "Mixed currencies", hdrCell "P"]

def fixtureRowFirst : List Cell :=
  [nCell, nCell, nCell, nCell, nCell, nCell, nCell, nCell, nCell, nCell, nCell, nCell,
   bCell, ⟨"true", some (.boolean true), some .date⟩,
   ⟨"$1", some (.number 1), some (.currency "USD")⟩, nCell]

def fixtureRowRest : List Cell :=
  [nCell, nCell, nCell, nCell, nCell, nCell, nCell, nCell, nCell, nCell, nCell, nCell,
   nCell, ⟨"1", some (.number 1), some .percentage⟩,
   ⟨"1", some (.number 1), some .percentage⟩, nCell]

def fixtureGrid : RawGrid :=
  ⟨fixtureHeader :: fixtureRowFirst :: List.replicate 15 fixtureRowRest⟩

def fixtureQuery : QueryModel := ⟨"someid", "A1:O", 10⟩

/-- Each assembled column holds one value per data row. -/
theorem assembleCols_fields_length (dataRows : List (List Cell)) :
    ∀ (hs : List Cell) (i : Nat) (used : Finset String),
      (assembleCols dataRows hs i used).1.length = hs.length
  | [], _, _ => rfl
  | h :: rest, i, used => by
      simp only [assembleCols, List.length_cons]
      rw [assembleCols_fields_length dataRows rest]

/-- Every assembled column has exactly dataRows.length values. -/
theorem assembleCols_values_length (dataRows : List (List Cell)) :
    ∀ (hs : List Cell) (i : Nat) (used : Finset String),
      (assembleCols dataRows hs i used).1.all
        (fun c => c.values.length == dataRows.length) = true
  | [], _, _ => rfl
  | h :: rest, i, used => by
      simp only [assembleCols, List.all_cons, Bool.and_eq_true]
      constructor
      · simp
      · exact assembleCols_values_length dataRows rest (i + 1) _

/-- C7: for every raw grid with a header row the assembled frame is named
by the caller-supplied reference id, has one field per header column, and
every field holds exactly rows-minus-one values; on the 17-row, 16-column
fixture this gives 16 fields of 16 values each. -/
theorem assemble_shape :
    (∀ (header : List Cell) (dataRows : List (List Cell)) (refId : String) (qm : QueryModel),
      (assemble ⟨header :: dataRows⟩ refId qm).toOption.map
        (fun p => (p.1.name, p.1.fields.length,
          p.1.fields.all (fun c => c.values.length == dataRows.length))) =
        some (refId, header.length, true)) ∧
    (assemble fixtureGrid "ref1" fixtureQuery).toOption.map
      (fun p => (p.1.fields.length,
        p.1.fields.all (fun c => c.values.length == 16))) = some (16, true) := by
  constructor
  · intro header dataRows refId qm
    simp only [assemble, Except.toOption, Option.map]
    rw [assembleCols_fields_length dataRows header, assembleCols_values_length dataRows header]
  · decide

/-- C4: when the conflicting non-empty format categories of a column are
all currency-like subvariants, the inferencer emits the currency wording
and sets the uses-formatted-display flag of the column. -/
theorem inferFormat_currency_wording (name : String) (cells : List Cell)
    (f : FormatCategory) (fs : List FormatCategory)
    (hf : cellFormats cells = f :: fs)
    (hne : fs.all (fun x => x == f) = false)
    (hcur : (f :: fs).all (fun x => x.isCurrency) = true) :
    (inferColumn name cells).2.1 = true ∧
    (inferFormat name (cellFormats cells)).2 =
      ["Multipe currencies found in column " ++ name ++ ". Formatted value will be used"] := by
  have h1 : inferFormat name (cellFormats cells) =
      (true, ["Multipe currencies found in column " ++ name ++ ". Formatted value will be used"]) := by
    rw [hf]
    simp [inferFormat, hne, hcur]
  exact ⟨by simp [inferColumn, h1], by rw [h1]⟩

/-- Witness for C4 at a concrete two-cell column mixing USD and EUR. -/
theorem inferFormat_currency_wording_witness :
    (inferColumn "Price"
      [⟨"$1", some (.number 1), some (.currency "USD")⟩,
       ⟨"E1", some (.number 1), some (.currency "EUR")⟩]).2.1 = true ∧
    (inferFormat "Price" (cellFormats
      [⟨"$1", some (.number 1), some (.currency "USD")⟩,
       ⟨"E1", some (.number 1), some (.currency "EUR")⟩])).2 =
      ["Multipe currencies found in column " ++ "Price" ++ ". Formatted value will be used"] :=
  inferFormat_currency_wording "Price" _ (.currency "USD") [.currency "EUR"]
    (by decide) (by decide) (by decide)

/-- C3: within one column the type diagnostic precedes the format
diagnostic, across columns diagnostics are appended in left-to-right
column order, and on the mixed-data fixture the warnings are exactly the
four strings of spec section 8 property 7 in that order. -/
theorem warnings_order :
    (∀ (name : String) (cells : List Cell),
      (inferColumn name cells).2.2 =
        (inferType name (cellKinds cells)).2 ++ (inferFormat name (cellFormats cells)).2) ∧
    (∀ (dataRows : List (List Cell)) (h : Cell) (rest : List Cell) (i : Nat)
        (used : Finset String),
      (assembleCols dataRows (h :: rest) i used).2 =
        (inferColumn (getUniqueColumnName h.formatted i used)
            (dataRows.map (fun r => cellAt r i))).2.2 ++
          (assembleCols dataRows rest (i + 1)
            (insert (getUniqueColumnName h.formatted i used) used)).2) ∧
    (assemble fixtureGrid "ref1" fixtureQuery).toOption.map (fun p => p.2.warnings) =
      some
        ["Multipe data types found in column MixedDataTypes. Using string data type",
         "Multipe data types found in column MixedUnits. Using string data type",
         "Multipe units found in column MixedUnits. Formatted value will be used",
         "Multipe units found in column Mixed currencies. Formatted value will be used"] := by
  refine ⟨fun name cells => rfl, fun dataRows h rest i used => rfl, by decide⟩

/-! ## Fetch-cache orchestrator (spec section 4.4)

Modelled from the spec: getSheetData of the googlesheets package is absent
from the sources (only its tests are present).  The cache store maps the
query fingerprint (spreadsheet id and range) to an entry holding the
frame, its metadata snapshot, the creation time and the time to live; an
expired entry behaves as a miss.  The Bool field fetched records whether
the call performed a remote fetch. -/

structure CacheEntry where
  frame : Frame
  meta : Metadata
  created : Nat
  ttl : Nat
deriving DecidableEq

abbrev Cache := List ((String × String) × CacheEntry)

def fingerprint (qm : QueryModel) : String × String := (qm.spreadsheetId, qm.range)

def cacheLookup (c : Cache) (k : String × String) (now : Nat) : Option CacheEntry :=
  match c.find? (fun p => p.1 == k) with
  | some p => if now < p.2.created + p.2.ttl then some p.2 else none
  | none => none

def cacheInsert (c : Cache) (k : String × String) (e : CacheEntry) : Cache :=
  (k, e) :: c.filter (fun p => !(p.1 == k))

structure FetchResult where
  res : Except GSErr (Frame × Metadata)
  cache : Cache
  fetched : Bool

/-- Modelled from the spec (section 4.4): on an unexpired cache entry the
cached frame is returned with a metadata copy whose hit flag is true and no
fetch happens; otherwise the client is consulted (its error propagated
unmodified, with no retry), the assembler runs, hit is set to false, and
the result is stored only when the requested cache duration is positive. -/
def getSheetData (client : Except GSErr RawGrid) (refId : String) (qm : QueryModel)
    (c : Cache) (now : Nat) : FetchResult :=
  match cacheLookup c (fingerprint qm) now with
  | some e => ⟨.ok (e.frame, { e.meta with hit := true }), c, false⟩
  | none =>
      match client with
      | .error e => ⟨.error e, c, true⟩
      | .ok grid =>
          match assemble grid refId qm with
          | .error e => ⟨.error e, c, true⟩
          | .ok (frame, meta) =>
              if 0 < qm.cacheDurationSeconds then
                ⟨.ok (frame, { meta with hit := false }),
                  cacheInsert c (fingerprint qm)
                    ⟨frame, { meta with hit := false }, now, qm.cacheDurationSeconds⟩, true⟩
              else ⟨.ok (frame, { meta with hit := false }), c, true⟩

def iterateCalls (client : Except GSErr RawGrid) (refId : String) (qm : QueryModel)
    (times : Nat → Nat) : Nat → Cache → Cache
  | 0, c => c
  | n + 1, c =>
      iterateCalls client refId qm times n (getSheetData client refId qm c (times n)).cache

/-- A call with a zero requested cache duration leaves the cache store
untouched. -/
theorem getSheetData_cache_eq_of_zero (client : Except GSErr RawGrid) (refId : String)
    (qm : QueryModel) (c : Cache) (now : Nat) (h0 : qm.cacheDurationSeconds = 0) :
    (getSheetData client refId qm c now).cache = c := by
  unfold getSheetData
  split
  · rfl
  · split
    · rfl
    · split
      · rfl
      · rw [h0]
        simp

/-- A call that misses an empty cache never reports a hit. -/
theorem getSheetData_empty_hit_false (client : Except GSErr RawGrid) (refId : String)
    (qm : QueryModel) (now : Nat) :
    ((getSheetData client refId qm [] now).res.toOption.all (fun p => !p.2.hit)) = true := by
  have hl : cacheLookup [] (fingerprint qm) now = none := rfl
  unfold getSheetData
  rw [hl]
  cases client with
  | error e => rfl
  | ok grid =>
      cases hassem : assemble grid refId qm with
      | error e => simp [hassem, Except.toOption]
      | ok p =>
          simp only [hassem]
          by_cases hdur : 0 < qm.cacheDurationSeconds
          · simp [hdur, Except.toOption]
          · simp [hdur, Except.toOption]

/-- C2: with a zero cache duration nothing is ever written to the cache
store (a call changes the cache only when the requested duration is
positive) and, starting from the empty cache, any number of repeated calls
leaves the cache empty while every call reports hit equal to false. -/
theorem getSheetData_zero_duration (client : Except GSErr RawGrid) (refId : String)
    (qm : QueryModel) :
    (∀ (c : Cache) (now : Nat),
        (getSheetData client refId qm c now).cache ≠ c → 0 < qm.cacheDurationSeconds) ∧
    (qm.cacheDurationSeconds = 0 →
      ∀ (times : Nat → Nat) (n : Nat),
        iterateCalls client refId qm times n [] = [] ∧
        ((getSheetData client refId qm [] (times n)).res.toOption.all
          (fun p => !p.2.hit)) = true) := by
  constructor
  · intro c now hne
    by_cases h : 0 < qm.cacheDurationSeconds
    · exact h
    · exact absurd (getSheetData_cache_eq_of_zero client refId qm c now (by omega)) hne
  · intro h0 times n
    refine ⟨?_, getSheetData_empty_hit_false client refId qm (times n)⟩
    induction n with
    | zero => rfl
    | succ n ih =>
        show iterateCalls client refId qm times n
          (getSheetData client refId qm [] (times n)).cache = []
        rw [getSheetData_cache_eq_of_zero client refId qm [] (times n) h0]
        exact ih

/-- Witness for C2 at a concrete query of duration zero. -/
theorem getSheetData_zero_duration_witness :
    (⟨"someid", "A1:O", 0⟩ : QueryModel).cacheDurationSeconds = 0 ∧
    (iterateCalls (.ok fixtureGrid) "ref1" ⟨"someid", "A1:O", 0⟩ (fun _ => 0) 3 [] = [] ∧
      ((getSheetData (.ok fixtureGrid) "ref1" ⟨"someid", "A1:O", 0⟩ [] 0).res.toOption.all
        (fun p => !p.2.hit)) = true) :=
  ⟨rfl, (getSheetData_zero_duration (.ok fixtureGrid) "ref1" ⟨"someid", "A1:O", 0⟩).2
    rfl (fun _ => 0) 3⟩

/-- C1: with cache duration 10 and an empty cache the first call misses
(hit false), fetches, and leaves exactly one entry in the cache; a second
identical call within the time to live is served from that entry with hit
true and performs no remote fetch. -/
theorem getSheetData_caches (grid : RawGrid) (refId : String) (qm : QueryModel)
    (t1 t2 : Nat) (hd : qm.cacheDurationSeconds = 10) (hg : grid.rows ≠ [])
    (ht : t2 < t1 + 10) :
    ∃ frame meta,
      getSheetData (.ok grid) refId qm [] t1 =
        ⟨.ok (frame, meta), [(fingerprint qm, ⟨frame, meta, t1, 10⟩)], true⟩ ∧
      meta.hit = false ∧
      getSheetData (.ok grid) refId qm [(fingerprint qm, ⟨frame, meta, t1, 10⟩)] t2 =
        ⟨.ok (frame, { meta with hit := true }),
          [(fingerprint qm, ⟨frame, meta, t1, 10⟩)], false⟩ := by
  obtain ⟨rows⟩ := grid
  cases rows with
  | nil => exact absurd rfl hg
  | cons header dataRows =>
      refine ⟨⟨refId, (assembleCols dataRows header 0 ∅).1⟩,
        ⟨false, qm.spreadsheetId, qm.range, (assembleCols dataRows header 0 ∅).2⟩, ?_, rfl, ?_⟩
      · have hl : cacheLookup [] (fingerprint qm) t1 = none := rfl
        unfold getSheetData
        rw [hl]
        simp [assemble, hd, cacheInsert]
      · have hl : cacheLookup
            [(fingerprint qm,
              ⟨⟨refId, (assembleCols dataRows header 0 ∅).1⟩,
                ⟨false, qm.spreadsheetId, qm.range, (assembleCols dataRows header 0 ∅).2⟩,
                t1, 10⟩)] (fingerprint qm) t2 =
            some ⟨⟨refId, (assembleCols dataRows header 0 ∅).1⟩,
              ⟨false, qm.spreadsheetId, qm.range, (assembleCols dataRows header 0 ∅).2⟩,
              t1, 10⟩ := by
          simp [cacheLookup, List.find?, ht]
        unfold getSheetData
        rw [hl]

/-- Witness for C1 at a concrete one-row grid and times 0 and 0. -/
theorem getSheetData_caches_witness :
    (⟨"someid", "A1:O", 10⟩ : QueryModel).cacheDurationSeconds = 10 ∧
    (⟨[[⟨"h", none, none⟩]]⟩ : RawGrid).rows ≠ [] ∧ (0 : Nat) < 0 + 10 ∧
    (∃ frame meta,
      getSheetData (.ok ⟨[[⟨"h", none, none⟩]]⟩) "ref1" ⟨"someid", "A1:O", 10⟩ [] 0 =
        ⟨.ok (frame, meta),
          [(fingerprint ⟨"someid", "A1:O", 10⟩, ⟨frame, meta, 0, 10⟩)], true⟩ ∧
      meta.hit = false ∧
      getSheetData (.ok ⟨[[⟨"h", none, none⟩]]⟩) "ref1" ⟨"someid", "A1:O", 10⟩
          [(fingerprint ⟨"someid", "A1:O", 10⟩, ⟨frame, meta, 0, 10⟩)] 0 =
        ⟨.ok (frame, { meta with hit := true }),
          [(fingerprint ⟨"someid", "A1:O", 10⟩, ⟨frame, meta, 0, 10⟩)], false⟩) :=
  ⟨rfl, by decide, by decide,
    getSheetData_caches ⟨[[⟨"h", none, none⟩]]⟩ "ref1" ⟨"someid", "A1:O", 10⟩ 0 0 rfl
      (by decide) (by decide)⟩

/-! ## Plugin entry point (datasource/datasource.go, DataQuery)

Shallow embedding of GoogleSheetsDataSource.DataQuery.  The external
collaborators (JSON unmarshalling of the datasource config and of each
query, gs.TestAPI and gs.Query) are abstracted as parameters of a DQEnv
record.  The Go pair (response, error) is modelled as an Except value: the
error constructor carries no frames, exactly as the Go code returns a nil
response together with the error.  A config unmarshal failure propagates
the unmarshal error itself; a query unmarshal failure is replaced by the
fresh error "Invalid query" (errInvalidQuery); an unknown query type gives
"Invalid query type" (errInvalidQueryType); a handler error is returned
unchanged.  The DQCall trace records every handler invocation performed,
in order, making the number of remote calls observable. -/

inductive DQCall where
  | test
  | runQ (refId : String)
deriving DecidableEq

structure DQEnv (Cfg QM Fr Json Err : Type) where
  parseConfig : Except Err Cfg
  parseQuery : Json → Except Err QM
  queryType : QM → String
  errInvalidQuery : Err
  errInvalidQueryType : Err
  testAPI : Cfg → Except Err Fr
  query : String → QM → Cfg → Except Err Fr

def dataQueryLoop {Cfg QM Fr Json Err : Type} (E : DQEnv Cfg QM Fr Json Err) (config : Cfg) :
    List (String × Json) → Except Err (List Fr) × List DQCall
  | [] => (.ok [], [])
  | (refId, js) :: rest =>
      match E.parseQuery js with
      | .error _ => (.error E.errInvalidQuery, [])
      | .ok qm =>
          if E.queryType qm = "testAPI" then
            match E.testAPI config with
            | .error e => (.error e, [.test])
            | .ok fr =>
                ((dataQueryLoop E config rest).1.map (fun l => fr :: l),
                  .test :: (dataQueryLoop E config rest).2)
          else if E.queryType qm = "query" then
            match E.query refId qm config with
            | .error e => (.error e, [.runQ refId])
            | .ok fr =>
                ((dataQueryLoop E config rest).1.map (fun l => fr :: l),
                  .runQ refId :: (dataQueryLoop E config rest).2)
          else (.error E.errInvalidQueryType, [])

def DataQuery {Cfg QM Fr Json Err : Type} (E : DQEnv Cfg QM Fr Json Err)
    (queries : List (String × Json)) : Except Err (List Fr) × List DQCall :=
  match E.parseConfig with
  | .error e => (.error e, [])
  | .ok config => dataQueryLoop E config queries

/-- The outcome of processing one query, when it succeeds. -/
def frameResult {Cfg QM Fr Json Err : Type} (E : DQEnv Cfg QM Fr Json Err) (config : Cfg)
    (q : String × Json) : Option Fr :=
  match E.parseQuery q.2 with
  | .error _ => none
  | .ok qm =>
      if E.queryType qm = "testAPI" then (E.testAPI config).toOption
      else if E.queryType qm = "query" then (E.query q.1 qm config).toOption
      else none

/-- The outcomes of a query batch, defined when every query succeeds. -/
def frameResults {Cfg QM Fr Json Err : Type} (E : DQEnv Cfg QM Fr Json Err) (config : Cfg) :
    List (String × Json) → Option (List Fr)
  | [] => some []
  | q :: rest =>
      match frameResult E config q with
      | none => none
      | some fr => (frameResults E config rest).map (fun l => fr :: l)

/-- The error raised by a failing query, if it fails. -/
def failErr {Cfg QM Fr Json Err : Type} (E : DQEnv Cfg QM Fr Json Err) (config : Cfg)
    (q : String × Json) : Option Err :=
  match E.parseQuery q.2 with
  | .error _ => some E.errInvalidQuery
  | .ok qm =>
      if E.queryType qm = "testAPI" then
        match E.testAPI config with
        | .error e => some e
        | .ok _ => none
      else if E.queryType qm = "query" then
        match E.query q.1 qm config with
        | .error e => some e
        | .ok _ => none
      else some E.errInvalidQueryType

/-- The handler invocation a successfully processed query performs. -/
def callOf {Cfg QM Fr Json Err : Type} (E : DQEnv Cfg QM Fr Json Err) (q : String × Json) :
    DQCall :=
  match E.parseQuery q.2 with
  | .error _ => .test
  | .ok qm => if E.queryType qm = "testAPI" then .test else .runQ q.1

/-- Processing a batch that starts with successfully handled queries
prepends their frames and their handler calls to the outcome of the rest. -/
theorem dataQueryLoop_append_ok {Cfg QM Fr Json Err : Type} (E : DQEnv Cfg QM Fr Json Err)
    (config : Cfg) :
    ∀ (qs₁ : List (String × Json)) (fs : List Fr),
      frameResults E config qs₁ = some fs →
      ∀ rest, dataQueryLoop E config (qs₁ ++ rest) =
        ((dataQueryLoop E config rest).1.map (fun l => fs ++ l),
          qs₁.map (callOf E) ++ (dataQueryLoop E config rest).2) := by
  intro qs₁
  induction qs₁ with
  | nil =>
      intro fs hfs rest
      cases hfs
      simp only [List.nil_append, List.map_nil]
      cases hdl : dataQueryLoop E config rest with
      | mk res tr => cases res <;> simp [Except.map]
  | cons q qs ih =>
      intro fs hfs rest
      obtain ⟨refId, js⟩ := q
      simp only [frameResults] at hfs
      cases hfr : frameResult E config (refId, js) with
      | none => simp only [hfr] at hfs; cases hfs
      | some fr =>
          simp only [hfr] at hfs
          cases hrec : frameResults E config qs with
          | none => simp only [hrec, Option.map] at hfs; cases hfs
          | some fs' =>
              simp only [hrec, Option.map, Option.some.injEq] at hfs
              subst hfs
              simp only [frameResult] at hfr
              cases hp : E.parseQuery js with
              | error e => simp only [hp] at hfr; cases hfr
              | ok qm =>
                  by_cases h1 : E.queryType qm = "testAPI"
                  · simp only [hp, h1, reduceIte, String.reduceEq] at hfr
                    cases hta : E.testAPI config with
                    | error e => simp only [hta, Except.toOption] at hfr; cases hfr
                    | ok fr' =>
                        simp only [hta, Except.toOption, Option.some.injEq] at hfr
                        subst hfr
                        show dataQueryLoop E config ((refId, js) :: (qs ++ rest)) = _
                        simp only [dataQueryLoop, hp, h1, reduceIte, String.reduceEq, hta,
                          ih fs' hrec rest, callOf, List.map_cons]
                        cases hres : (dataQueryLoop E config rest).1 <;>
                          simp [Except.map, hres]
                  · by_cases h2 : E.queryType qm = "query"
                    · simp only [hp, h1, h2, reduceIte, String.reduceEq] at hfr
                      cases hq : E.query refId qm config with
                      | error e => simp only [hq, Except.toOption] at hfr; cases hfr
                      | ok fr' =>
                          simp only [hq, Except.toOption, Option.some.injEq] at hfr
                          subst hfr
                          show dataQueryLoop E config ((refId, js) :: (qs ++ rest)) = _
                          simp only [dataQueryLoop, hp, h1, h2, reduceIte, String.reduceEq, hq,
                            ih fs' hrec rest, callOf, List.map_cons]
                          cases hres : (dataQueryLoop E config rest).1 <;>
                            simp [Except.map, hres]
                    · simp only [hp, h1, h2, reduceIte, String.reduceEq] at hfr; cases hfr

/-- When every query succeeds there is one frame per query. -/
theorem frameResults_length {Cfg QM Fr Json Err : Type} (E : DQEnv Cfg QM Fr Json Err)
    (config : Cfg) :
    ∀ (qs : List (String × Json)) (fs : List Fr),
      frameResults E config qs = some fs → fs.length = qs.length := by
  intro qs
  induction qs with
  | nil => intro fs hfs; cases hfs; rfl
  | cons q rest ih =>
      intro fs hfs
      simp only [frameResults] at hfs
      cases hfr : frameResult E config q with
      | none => simp only [hfr] at hfs; cases hfs
      | some fr =>
          simp only [hfr] at hfs
          cases hrec : frameResults E config rest with
          | none => simp only [hrec, Option.map] at hfs; cases hfs
          | some fs' =>
              simp only [hrec, Option.map, Option.some.injEq] at hfs
              subst hfs
              simp [ih fs' hrec]

/-- A query whose processing fails makes the loop stop with its error. -/
theorem dataQueryLoop_fail_head {Cfg QM Fr Json Err : Type} (E : DQEnv Cfg QM Fr Json Err)
    (config : Cfg) (q : String × Json) (e : Err) (he : failErr E config q = some e)
    (rest : List (String × Json)) :
    (dataQueryLoop E config (q :: rest)).1 = .error e := by
  obtain ⟨refId, js⟩ := q
  simp only [failErr] at he
  cases hp : E.parseQuery js with
  | error pe =>
      simp only [hp, Option.some.injEq] at he
      subst he
      simp [dataQueryLoop, hp]
  | ok qm =>
      by_cases h1 : E.queryType qm = "testAPI"
      · cases hta : E.testAPI config with
        | error e0 =>
            simp only [hp, h1, reduceIte, String.reduceEq, hta, Option.some.injEq] at he
            subst he
            simp [dataQueryLoop, hp, h1, hta]
        | ok fr => simp only [hp, h1, reduceIte, String.reduceEq, hta] at he; cases he
      · by_cases h2 : E.queryType qm = "query"
        · cases hq : E.query refId qm config with
          | error e0 =>
              simp only [hp, h1, h2, reduceIte, String.reduceEq, hq, Option.some.injEq] at he
              subst he
              simp [dataQueryLoop, hp, h1, h2, hq]
          | ok fr => simp only [hp, h1, h2, reduceIte, String.reduceEq, hq] at he; cases he
        · simp only [hp, h1, h2, reduceIte, String.reduceEq, Option.some.injEq] at he
          subst he
          simp [dataQueryLoop, hp, h1, h2]

/-- C8: when the remote fetch of a query fails, DataQuery returns that
error unchanged, returns no frames alongside it, and the trace shows the
failing fetch was attempted exactly once, with no retry and nothing after
it. -/
theorem dataQuery_fetch_error {Cfg QM Fr Json Err : Type} (E : DQEnv Cfg QM Fr Json Err)
    (config : Cfg) (qs₁ qs₂ : List (String × Json)) (fs : List Fr) (refId : String)
    (js : Json) (qm : QM) (e : Err)
    (hc : E.parseConfig = .ok config)
    (h1 : frameResults E config qs₁ = some fs)
    (hp : E.parseQuery js = .ok qm)
    (hqt : E.queryType qm = "query")
    (hq : E.query refId qm config = .error e) :
    DataQuery E (qs₁ ++ (refId, js) :: qs₂) =
      (.error e, qs₁.map (callOf E) ++ [.runQ refId]) := by
  have hne : ¬ E.queryType qm = "testAPI" := by rw [hqt]; decide
  simp only [DataQuery, hc]
  rw [dataQueryLoop_append_ok E config qs₁ fs h1]
  simp [dataQueryLoop, hp, hne, hqt, hq, Except.map]

/-- Witness for C8: a batch of one succeeding query, one failing fetch and
one further query. -/
theorem dataQuery_fetch_error_witness :
    DataQuery
      (⟨.ok "cfg", fun j => if j = "bad" then .error "parse" else .ok j,
        fun qm => if qm = "t" then "testAPI" else "query",
        "Invalid query", "Invalid query type",
        fun _ => .ok "testframe",
        fun refId qm _ => if qm = "fail" then .error "boom" else .ok (refId ++ qm)⟩ :
        DQEnv String String String String String)
      ([("a", "q1")] ++ ("b", "fail") :: [("c", "q2")]) =
      (.error "boom",
        [("a", "q1")].map (callOf
          (⟨.ok "cfg", fun j => if j = "bad" then .error "parse" else .ok j,
            fun qm => if qm = "t" then "testAPI" else "query",
            "Invalid query", "Invalid query type",
            fun _ => .ok "testframe",
            fun refId qm _ => if qm = "fail" then .error "boom" else .ok (refId ++ qm)⟩ :
            DQEnv String String String String String)) ++ [.runQ "b"]) :=
  dataQuery_fetch_error _ "cfg" [("a", "q1")] [("c", "q2")] ["aq1"] "b" "fail" "fail" "boom"
    rfl rfl rfl rfl rfl

/-- C9: DataQuery is all-or-nothing over a batch: a config unmarshal error
is returned with no frames; when every query succeeds the response holds
exactly one frame per query in the original request order; and when some
query fails after a succeeding prefix, the response is the error alone,
the frames of the prefix being discarded. -/
theorem dataQuery_all_or_nothing {Cfg QM Fr Json Err : Type} (E : DQEnv Cfg QM Fr Json Err) :
    (∀ e queries, E.parseConfig = .error e → DataQuery E queries = (.error e, [])) ∧
    (∀ config queries fs, E.parseConfig = .ok config →
      frameResults E config queries = some fs →
      DataQuery E queries = (.ok fs, queries.map (callOf E)) ∧
        fs.length = queries.length) ∧
    (∀ config qs₁ qs₂ q fs e, E.parseConfig = .ok config →
      frameResults E config qs₁ = some fs → failErr E config q = some e →
      (DataQuery E (qs₁ ++ q :: qs₂)).1 = .error e) := by
  refine ⟨?_, ?_, ?_⟩
  · intro e queries hc
    simp [DataQuery, hc]
  · intro config queries fs hc hfs
    refine ⟨?_, frameResults_length E config queries fs hfs⟩
    simp only [DataQuery, hc]
    have h := dataQueryLoop_append_ok E config queries fs hfs []
    rw [List.append_nil] at h
    rw [h]
    simp [dataQueryLoop, Except.map]
  · intro config qs₁ qs₂ q fs e hc hfs he
    have hh := dataQueryLoop_fail_head E config q e he qs₂
    simp only [DataQuery, hc]
    rw [dataQueryLoop_append_ok E config qs₁ fs hfs (q :: qs₂)]
    simp [hh, Except.map]

/-- Witness for C9: the success conjunct at a concrete two-query batch. -/
theorem dataQuery_all_or_nothing_witness :
    DataQuery
      (⟨.ok "cfg", fun j => if j = "bad" then .error "parse" else .ok j,
        fun qm => if qm = "t" then "testAPI" else "query",
        "Invalid query", "Invalid query type",
        fun _ => .ok "testframe",
        fun refId qm _ => if qm = "fail" then .error "boom" else .ok (refId ++ qm)⟩ :
        DQEnv String String String String String)
      [("a", "q1"), ("t", "t")] =
      (.ok ["aq1", "testframe"],
        [("a", "q1"), ("t", "t")].map (callOf
          (⟨.ok "cfg", fun j => if j = "bad" then .error "parse" else .ok j,
            fun qm => if qm = "t" then "testAPI" else "query",
            "Invalid query", "Invalid query type",
            fun _ => .ok "testframe",
            fun refId qm _ => if qm = "fail" then .error "boom" else .ok (refId ++ qm)⟩ :
            DQEnv String String String String String))) ∧
      (["aq1", "testframe"] : List String).length = 2 :=
  (dataQuery_all_or_nothing _).2.1 "cfg" [("a", "q1"), ("t", "t")] ["aq1", "testframe"]
    rfl rfl

/-! ## Query editor URL handling (src/QueryEditor.tsx)

Shallow embedding of getGoogleSheetRangeInfoFromURL and toGoogleURL over
character lists.  jsIndexOf and jsSubstring follow the JavaScript string
semantics: indexOf returns the first match position or -1; substring
clamps both arguments into the valid index range and swaps them when
reversed.  The original check "if (!idx)" treats only position 0 as a
failed lookup (-1 is truthy), and "if (idx)" runs also for -1; both quirks
are modelled as written. -/

def firstIdxAux (pat : List Char) : List Char → Option Nat
  | [] => if pat = [] then some 0 else none
  | c :: t => if pat <+: (c :: t) then some 0 else (firstIdxAux pat t).map (· + 1)

def jsIndexOf (l pat : List Char) : Int :=
  match firstIdxAux pat l with
  | some n => (n : Int)
  | none => -1

def jsSubstring (s : List Char) (a b : Int) : List Char :=
  (s.take (max (min a.toNat s.length) (min b.toNat s.length))).drop
    (min (min a.toNat s.length) (min b.toNat s.length))

def jsSubstringFrom (s : List Char) (a : Int) : List Char :=
  jsSubstring s a (s.length : Int)

structure GoogleSheetRangeInfo where
  spreadsheetId : List Char
  range : List Char
deriving DecidableEq

def toGoogleURL (info : GoogleSheetRangeInfo) : List Char :=
  let url := "https://docs.google.com/spreadsheets/d/".toList ++ info.spreadsheetId ++
    "/view".toList
  if info.range ≠ [] then url ++ ("#range=".toList ++ info.range) else url

def getGoogleSheetRangeInfoFromURL (url : List Char) :
    Option (List Char) × Option (List Char) :=
  let idx := jsIndexOf url "/d/".toList
  if idx = 0 then (some url, none)
  else
    let id0 := jsSubstringFrom url (idx + 3)
    let idx2 := jsIndexOf id0 "/".toList
    let id1 := if idx2 ≠ 0 then jsSubstring id0 0 idx2 else id0
    let idx3 := jsIndexOf url "range=".toList
    if idx3 > 0 then (some id1, some (jsSubstringFrom url (idx3 + 6)))
    else (some id1, none)

def urlPre : List Char := "https://docs.google.com/spreadsheets/d/".toList

/-- The pattern "/d/" first occurs in the fixed URL template at position
36, whatever follows the template. -/
theorem firstIdxAux_dSlash (rest : List Char) :
    firstIdxAux "/d/".toList (urlPre ++ rest) = some 36 := by
  simp [firstIdxAux, urlPre]

/-- A pattern is found at position 0 of any list it starts. -/
theorem firstIdxAux_self (pat r : List Char) : firstIdxAux pat (pat ++ r) = some 0 := by
  cases pat with
  | nil =>
      cases r with
      | nil => rfl
      | cons c t => simp [firstIdxAux]
  | cons p ps =>
      have hpre : (p :: ps) <+: ((p :: ps) ++ r) := List.prefix_append _ _
      show firstIdxAux (p :: ps) (p :: (ps ++ r)) = some 0
      simp [firstIdxAux, hpre]

/-- Searching a single character finds the first occurrence right after a
block that avoids it. -/
theorem firstIdxAux_singleton (c : Char) :
    ∀ (a : List Char), c ∉ a → ∀ r, firstIdxAux [c] (a ++ c :: r) = some a.length
  | [], _, r => by
      have hpre : [c] <+: c :: r := ⟨r, rfl⟩
      simp [firstIdxAux, hpre]
  | x :: a', h, r => by
      have hx : ¬ [c] <+: x :: (a' ++ c :: r) := by
        intro hcon
        rcases List.cons_prefix_cons.mp hcon with ⟨hcx, -⟩
        exact h (by rw [hcx]; exact List.mem_cons_self _ _)
      have hrec := firstIdxAux_singleton c a' (fun hmem => h (List.mem_cons_of_mem _ hmem)) r
      show firstIdxAux [c] (x :: (a' ++ c :: r)) = some (a'.length + 1)
      rw [firstIdxAux, if_neg hx, hrec]
      rfl

/-- Searching past a block with no match shifts the found index by the
length of the block. -/
theorem firstIdxAux_append (pat b : List Char) :
    ∀ (a : List Char), (∀ s, s <:+ a → s ≠ [] → ¬ pat <+: (s ++ b)) →
      firstIdxAux pat (a ++ b) = (firstIdxAux pat b).map (· + a.length)
  | [], _ => by
      cases hres : firstIdxAux pat b <;> simp [hres]
  | x :: a', h => by
      have hx : ¬ pat <+: x :: (a' ++ b) := by
        have hh := h (x :: a') (List.suffix_refl _) (by simp)
        rwa [List.cons_append] at hh
      have hrec := firstIdxAux_append pat b a'
        (fun s hsuf hne => h s (hsuf.trans (List.suffix_cons _ _)) hne)
      show firstIdxAux pat (x :: (a' ++ b)) = _
      rw [firstIdxAux, if_neg hx, hrec]
      cases hres : firstIdxAux pat b <;> simp [hres]
      omega

/-- Substring from a valid start position, with no end argument, is drop. -/
theorem jsSubstringFrom_eq_drop (s : List Char) (n : Nat) (h : n ≤ s.length) :
    jsSubstringFrom s (n : Int) = s.drop n := by
  simp only [jsSubstringFrom, jsSubstring, Int.toNat_ofNat, min_self,
    min_eq_left h, max_eq_right h, List.take_length]

/-- Substring from 0 to a valid end position is take. -/
theorem jsSubstring_zero_eq_take (s : List Char) (n : Nat) (h : n ≤ s.length) :
    jsSubstring s 0 (n : Int) = s.take n := by
  simp only [jsSubstring, Int.toNat_ofNat, Int.toNat_zero, min_eq_left h]
  rw [min_eq_left (Nat.zero_le _), max_eq_right (Nat.zero_le _), min_eq_left (Nat.zero_le _)]
  simp

/-- A suffix of a concatenation is a suffix of the right part or extends
it by a suffix of the left part. -/
theorem suffix_append_split {α : Type} {s u v : List α} (h : s <:+ u ++ v) :
    s <:+ v ∨ ∃ t, s = t ++ v ∧ t <:+ u := by
  obtain ⟨w, hw⟩ := h
  rcases List.append_eq_append_iff.mp hw with ⟨a, ha1, ha2⟩ | ⟨a, ha1, ha2⟩
  · exact Or.inr ⟨a, ha2, ⟨w, ha1.symm⟩⟩
  · exact Or.inl ⟨a, ha2.symm⟩

/-- A pattern starting a concatenation either fits inside the left block
or covers the separating character. -/
theorem prefix_append_cons {α : Type} :
    ∀ (pat q : List α) (c : α) (rest : List α), pat <+: q ++ c :: rest →
      (pat.length ≤ q.length ∧ pat <+: q) ∨ c ∈ pat
  | [], q, _, _, _ => Or.inl ⟨Nat.zero_le _, ⟨q, rfl⟩⟩
  | p :: ps, [], c, rest, h => by
      rcases List.cons_prefix_cons.mp h with ⟨hpc, -⟩
      exact Or.inr (by rw [hpc]; exact List.mem_cons_self _ _)
  | p :: ps, x :: q', c, rest, h => by
      rw [List.cons_append] at h
      rcases List.cons_prefix_cons.mp h with ⟨hpx, hps⟩
      rcases prefix_append_cons ps q' c rest hps with ⟨hlen, hp⟩ | hmem
      · refine Or.inl ⟨Nat.succ_le_succ hlen, ?_⟩
        rw [hpx]
        exact List.cons_prefix_cons.mpr ⟨rfl, hp⟩
      · exact Or.inr (List.mem_cons_of_mem _ hmem)

/-- An infix that avoids a separating character lies entirely on one side
of it. -/
theorem infix_append_cons_split {α : Type} (pat : List α) (c : α) (hc : c ∉ pat) :
    ∀ (u v : List α), pat <:+: u ++ c :: v → pat <:+: u ∨ pat <:+: v
  | [], v, h => by
      rcases List.infix_cons_iff.mp h with hpre | hinf
      · cases pat with
        | nil => exact Or.inl List.nil_infix
        | cons p ps =>
            rcases List.cons_prefix_cons.mp hpre with ⟨hpc, -⟩
            exact absurd (by rw [hpc]; exact List.mem_cons_self c ps : c ∈ p :: ps) hc
      · exact Or.inr hinf
  | x :: u', v, h => by
      rw [List.cons_append] at h
      rcases List.infix_cons_iff.mp h with hpre | hinf
      · rcases prefix_append_cons pat (x :: u') c v (by rwa [List.cons_append]) with
          ⟨hlen, hp⟩ | hmem
        · exact Or.inl hp.isInfix
        · exact absurd hmem hc
      · rcases infix_append_cons_split pat c hc u' v hinf with h1 | h2
        · exact Or.inl (List.infix_cons h1)
        · exact Or.inr h2

/-- In a generated URL whose spreadsheet id avoids both the slash and the
pattern "range=", that pattern does not start at any position before the
fragment part. -/
theorem range_no_early_match (sid rng : List Char)
    (hnr : ¬ ("range=".toList <:+: sid)) :
    ∀ s, s <:+ (urlPre ++ sid) ++ "/view#".toList → s ≠ [] →
      ¬ "range=".toList <+: (s ++ ("range=".toList ++ rng)) := by
  intro s hsuf hne hpre
  rcases suffix_append_split hsuf with hsv | ⟨t, hteq, htu⟩
  · cases s with
    | nil => exact hne rfl
    | cons a s' =>
        have hmem : a ∈ "/view#".toList := hsv.sublist.subset (List.mem_cons_self _ _)
        rw [List.cons_append] at hpre
        rw [show "range=".toList = 'r' :: "ange=".toList from by decide] at hpre
        rcases List.cons_prefix_cons.mp hpre with ⟨hra, -⟩
        rw [← hra] at hmem
        exact absurd hmem (by decide)
  · subst hteq
    rw [List.append_assoc] at hpre
    rw [show "/view#".toList = '/' :: "view#".toList from by decide, List.cons_append] at hpre
    rcases prefix_append_cons "range=".toList t '/'
        ("view#".toList ++ ("range=".toList ++ rng)) hpre with ⟨hlen, hp⟩ | hmem
    · have hinf : "range=".toList <:+: urlPre ++ sid := hp.isInfix.trans htu.isInfix
      rw [show urlPre = "https://docs.google.com/spreadsheets/d".toList ++ ['/'] from by decide,
        List.append_assoc, List.singleton_append] at hinf
      rcases infix_append_cons_split "range=".toList '/' (by decide)
          "https://docs.google.com/spreadsheets/d".toList sid hinf with hP | hsid
      · exact absurd hP (by decide)
      · exact hnr hsid
    · exact absurd hmem (by decide)

/-- The pattern "range=" is first found right after the fragment hash of a
generated URL when the spreadsheet id avoids the slash and the pattern. -/
theorem firstIdxAux_range (sid rng : List Char)
    (hnr : ¬ ("range=".toList <:+: sid)) :
    firstIdxAux "range=".toList
      (((urlPre ++ sid) ++ "/view#".toList) ++ ("range=".toList ++ rng)) =
      some (45 + sid.length) := by
  rw [firstIdxAux_append "range=".toList ("range=".toList ++ rng)
    ((urlPre ++ sid) ++ "/view#".toList) (range_no_early_match sid rng hnr)]
  rw [firstIdxAux_self]
  simp only [Option.map, List.length_append,
    show urlPre.length = 39 from by decide,
    show ("/view#".toList).length = 6 from by decide, Option.some.injEq]
  omega

/-- The canonical decomposition of a generated URL with a nonempty range. -/
theorem toGoogleURL_eq (sid rng : List Char) (hr : rng ≠ []) :
    toGoogleURL ⟨sid, rng⟩ =
      urlPre ++ (sid ++ ("/view#".toList ++ ("range=".toList ++ rng))) := by
  have hcat : ∀ r : List Char,
      "/view".toList ++ ("#range=".toList ++ r) =
        "/view#".toList ++ ("range=".toList ++ r) := by
    intro r
    rw [← List.append_assoc, ← List.append_assoc,
      show "/view".toList ++ "#range=".toList = "/view#".toList ++ "range=".toList from by decide]
  simp only [toGoogleURL, if_pos hr]
  rw [List.append_assoc, List.append_assoc, hcat, urlPre]

/-- C10 counterexample: with the spreadsheet id "arange=b" (nonempty, no
slash) and the range "A1:B2" (nonempty), the round trip does not recover
the range, because indexOf finds "range=" inside the id. -/
theorem url_roundtrip_counterexample :
    ("arange=b".toList ≠ [] ∧ '/' ∉ "arange=b".toList ∧ "A1:B2".toList ≠ []) ∧
    getGoogleSheetRangeInfoFromURL (toGoogleURL ⟨"arange=b".toList, "A1:B2".toList⟩) ≠
      (some "arange=b".toList, some "A1:B2".toList) := by
  constructor
  · refine ⟨by decide, by decide, by decide⟩
  · decide

/-- C10 (amended): for every info whose spreadsheet id is nonempty, has no
slash and does not contain the substring "range=", and whose range is
nonempty, parsing the generated URL recovers both the spreadsheet id and
the range. -/
theorem url_roundtrip (sid rng : List Char) (hs : sid ≠ []) (hslash : '/' ∉ sid)
    (hr : rng ≠ []) (hnr : ¬ ("range=".toList <:+: sid)) :
    getGoogleSheetRangeInfoFromURL (toGoogleURL ⟨sid, rng⟩) = (some sid, some rng) := by
  have hurl := toGoogleURL_eq sid rng hr
  have h39 : urlPre.length = 39 := by decide
  have hurl2 : toGoogleURL ⟨sid, rng⟩ =
      ((urlPre ++ sid) ++ "/view#".toList) ++ ("range=".toList ++ rng) := by
    rw [hurl]
    simp [List.append_assoc]
  have hurl3 : toGoogleURL ⟨sid, rng⟩ =
      (((urlPre ++ sid) ++ "/view#".toList) ++ "range=".toList) ++ rng := by
    rw [hurl]
    simp [List.append_assoc]
  have hds : jsIndexOf (toGoogleURL ⟨sid, rng⟩) "/d/".toList = 36 := by
    rw [hurl]
    unfold jsIndexOf
    rw [firstIdxAux_dSlash]
    rfl
  have hid0 : jsSubstringFrom (toGoogleURL ⟨sid, rng⟩) 39 =
      sid ++ ("/view#".toList ++ ("range=".toList ++ rng)) := by
    rw [hurl]
    have hle : 39 ≤ (urlPre ++ (sid ++ ("/view#".toList ++ ("range=".toList ++ rng)))).length := by
      rw [List.length_append, h39]
      omega
    have hd := jsSubstringFrom_eq_drop
      (urlPre ++ (sid ++ ("/view#".toList ++ ("range=".toList ++ rng)))) 39 hle
    exact hd.trans (List.drop_left' h39)
  have hidx2 : jsIndexOf (sid ++ ("/view#".toList ++ ("range=".toList ++ rng)))
      "/".toList = (sid.length : Int) := by
    rw [show "/".toList = ['/'] from by decide,
      show "/view#".toList = '/' :: "view#".toList from by decide, List.cons_append]
    unfold jsIndexOf
    rw [firstIdxAux_singleton '/' sid hslash]
  have hlenpos : sid.length ≠ 0 := by
    intro h0
    exact hs (List.eq_nil_of_length_eq_zero h0)
  have hne2 : (sid.length : Int) ≠ 0 := by omega
  have hid1 : jsSubstring (sid ++ ("/view#".toList ++ ("range=".toList ++ rng))) 0
      (sid.length : Int) = sid := by
    have hle : sid.length ≤ (sid ++ ("/view#".toList ++ ("range=".toList ++ rng))).length := by
      rw [List.length_append]
      omega
    have ht := jsSubstring_zero_eq_take
      (sid ++ ("/view#".toList ++ ("range=".toList ++ rng))) sid.length hle
    exact ht.trans (List.take_left' rfl)
  have hidx3 : jsIndexOf (toGoogleURL ⟨sid, rng⟩) "range=".toList =
      ((45 + sid.length : Nat) : Int) := by
    rw [hurl2]
    unfold jsIndexOf
    rw [firstIdxAux_range sid rng hnr]
  have hlenA : ((((urlPre ++ sid) ++ "/view#".toList) ++ "range=".toList)).length =
      51 + sid.length := by
    simp only [List.length_append, h39,
      show ("/view#".toList).length = 6 from by decide,
      show ("range=".toList).length = 6 from by decide]
    omega
  have hrng : jsSubstringFrom (toGoogleURL ⟨sid, rng⟩) (((51 + sid.length : Nat)) : Int) =
      rng := by
    rw [hurl3]
    have hle : 51 + sid.length ≤
        ((((urlPre ++ sid) ++ "/view#".toList) ++ "range=".toList) ++ rng).length := by
      rw [List.length_append, hlenA]
      omega
    have hd := jsSubstringFrom_eq_drop
      ((((urlPre ++ sid) ++ "/view#".toList) ++ "range=".toList) ++ rng) (51 + sid.length) hle
    exact hd.trans (List.drop_left' hlenA)
  simp only [getGoogleSheetRangeInfoFromURL, hds, hidx3]
  rw [if_neg (by decide : ¬ (36 : Int) = 0)]
  rw [show (36 : Int) + 3 = 39 from by decide, hid0, hidx2, if_pos hne2, hid1]
  rw [if_pos (by omega : ((45 + sid.length : Nat) : Int) > 0)]
  rw [show ((45 + sid.length : Nat) : Int) + 6 = ((51 + sid.length : Nat) : Int) from by omega]
  rw [hrng]

/-- Witness for the amended C10 at a concrete id and range. -/
theorem url_roundtrip_witness :
    ("abc123".toList ≠ [] ∧ '/' ∉ "abc123".toList ∧ "Sheet1!A1:B2".toList ≠ [] ∧
      ¬ ("range=".toList <:+: "abc123".toList)) ∧
    getGoogleSheetRangeInfoFromURL (toGoogleURL ⟨"abc123".toList, "Sheet1!A1:B2".toList⟩) =
      (some "abc123".toList, some "Sheet1!A1:B2".toList) :=
  ⟨⟨by decide, by decide, by decide, by decide⟩,
    url_roundtrip "abc123".toList "Sheet1!A1:B2".toList (by decide) (by decide)
      (by decide) (by decide)⟩

end GSheets
